import Mathlib

/-!
Verification of the GopherAI RAG glue layer and user DAO.

Strings of the Go source are modelled as lists of characters (`Str`), Go maps
as association lists, fallible calls as `Except`, and external collaborators
(embedding provider, vector store, filesystem, relational store, hash
function) as function parameters, so that each in-repo function becomes a
pure, executable Lean definition mirroring the Go control flow.
-/

set_option autoImplicit false

/-- Character-list model of a Go string. -/
abbrev Str := List Char

/-- Coerce a Lean string literal into the `Str` model. -/
def str (s : String) : Str := s.data

/-- A value stored in a Go `map[string]any`: either a string or some
non-string value (tagged, since only the string/non-string distinction
matters to the code). -/
inductive MetaVal where
  | str (s : Str)
  | other (tag : Nat)
deriving DecidableEq

/-- `schema.Document`: id, text content and metadata map. -/
structure Document where
  ID : Str
  Content : Str
  MetaData : List (Str × MetaVal)
deriving DecidableEq

/-- `redisIndexer.FieldValue`: a stored value, together with the name of the
vector field that receives its embedding when it is an embed target. -/
structure FieldValue where
  Value : Str
  EmbedKey : Option Str
deriving DecidableEq

/-- `redisIndexer.Hashes`: the record shape written to the vector store. -/
structure Hashes where
  Key : Str
  Field2Value : List (Str × FieldValue)
deriving DecidableEq

/-- The `DocumentToHashes` closure from `NewRAGIndexer`: extracts the string
under the `source` metadata key (empty string when absent or not a string),
and builds the hash record with key `filename:doc.ID`, a `content` field
embedded into `vector`, and a plain `metadata` field. -/
def DocumentToHashes (filename : Str) (doc : Document) : Except Str Hashes :=
  let source : Str :=
    match doc.MetaData.lookup (str "source") with
    | some (MetaVal.str s) => s
    | _ => []
  Except.ok
    { Key := filename ++ str ":" ++ doc.ID
      Field2Value :=
        [(str "content", { Value := doc.Content, EmbedKey := some (str "vector") }),
         (str "metadata", { Value := source, EmbedKey := none })] }

/-- Whether an optional metadata value is present and is a string. -/
def isStringVal : Option MetaVal → Bool
  | some (MetaVal.str _) => true
  | _ => false

/-- C1: for every document carrying a string source label S in its metadata,
the mapper yields a record keyed `filename:doc.ID` whose content field holds
the document content with embed target `vector` and whose metadata field is
exactly S. -/
theorem DocumentToHashes_maps_source (filename S : Str) (doc : Document)
    (h : doc.MetaData.lookup (str "source") = some (MetaVal.str S)) :
    DocumentToHashes filename doc =
      Except.ok
        { Key := filename ++ str ":" ++ doc.ID
          Field2Value :=
            [(str "content", { Value := doc.Content, EmbedKey := some (str "vector") }),
             (str "metadata", { Value := S, EmbedKey := none })] } := by
  simp [DocumentToHashes, h]

/-- Witness for C1 at a concrete document. -/
theorem DocumentToHashes_maps_source_witness :
    DocumentToHashes (str "kb")
        { ID := str "doc_1", Content := str "hello",
          MetaData := [(str "source", MetaVal.str (str "a.txt"))] } =
      Except.ok
        { Key := str "kb" ++ str ":" ++ str "doc_1"
          Field2Value :=
            [(str "content", { Value := str "hello", EmbedKey := some (str "vector") }),
             (str "metadata", { Value := str "a.txt", EmbedKey := none })] } :=
  DocumentToHashes_maps_source (str "kb") (str "a.txt") _ (by decide)

/-- C10: the mapper is total, returning `ok` on every document, and when the
`source` metadata key is absent or maps to a non-string value the metadata
field of the record is the empty string. -/
theorem DocumentToHashes_total (filename : Str) (doc : Document) :
    ∃ h, DocumentToHashes filename doc = Except.ok h ∧
      (isStringVal (doc.MetaData.lookup (str "source")) = false →
        h.Field2Value.lookup (str "metadata") =
          some { Value := [], EmbedKey := none }) := by
  refine ⟨_, rfl, ?_⟩
  intro hfalse
  have hne : (str "metadata" == str "content") = false := by decide
  have heq : (str "metadata" == str "metadata") = true := by decide
  cases hsrc : doc.MetaData.lookup (str "source") with
  | none => simp [DocumentToHashes, hsrc, List.lookup, hne, heq]
  | some v =>
    cases v with
    | str s => simp [isStringVal, hsrc] at hfalse
    | other tag => simp [DocumentToHashes, hsrc, List.lookup, hne, heq]

/-- Witness for C10 at a document whose `source` metadata is not a string. -/
theorem DocumentToHashes_total_witness :
    ∃ h, DocumentToHashes (str "kb")
        { ID := str "d", Content := str "c",
          MetaData := [(str "source", MetaVal.other 0)] } = Except.ok h ∧
      h.Field2Value.lookup (str "metadata") =
        some { Value := [], EmbedKey := none } := by
  obtain ⟨h, hok, himp⟩ := DocumentToHashes_total (str "kb")
    { ID := str "d", Content := str "c",
      MetaData := [(str "source", MetaVal.other 0)] }
  exact ⟨h, hok, himp (by decide)⟩

/-- One numbered block of the context text built by `BuildRAGPrompt`. -/
def docBlock (n : Nat) (d : Document) : Str :=
  str "[文档 " ++ (Nat.repr n).data ++ str "]: " ++ d.Content ++ str "\n\n"

/-- The `contextText` accumulation loop of `BuildRAGPrompt`, carrying the
running index `i` (labels are `i + 1`). -/
def contextTextAux : Nat → List Document → Str
  | _, [] => []
  | i, d :: rest => docBlock (i + 1) d ++ contextTextAux (i + 1) rest

/-- The context text accumulated over all documents, starting at index 0. -/
def contextText (docs : List Document) : Str := contextTextAux 0 docs

/-- The fixed template text before the context block. -/
def ragHeader : Str :=
  str "基于以下参考文档回答用户的问题。如果文档中没有相关信息，请说明无法找到相关信息。\n\n参考文档：\n"

/-- The fixed template text between the context block and the query. -/
def ragMid : Str := str "\n\n用户问题："

/-- The fixed closing instruction after the query. -/
def ragTail : Str := str "\n\n请提供准确、完整的回答："

/-- `BuildRAGPrompt`: the query alone when no documents were retrieved,
otherwise the fixed template around the numbered context blocks and the
query. -/
def BuildRAGPrompt (query : Str) (docs : List Document) : Str :=
  if docs = [] then query
  else ragHeader ++ contextText docs ++ ragMid ++ query ++ ragTail

/-- Number of occurrences of `pat` as a contiguous substring (counted at
every starting position). -/
def countOccs (pat : Str) : Str → Nat
  | [] => if pat.isPrefixOf ([] : Str) then 1 else 0
  | c :: rest => (if pat.isPrefixOf (c :: rest) then 1 else 0) + countOccs pat rest

/-- C3: with an empty document list the prompt is the query, unchanged. -/
theorem BuildRAGPrompt_empty (query : Str) : BuildRAGPrompt query [] = query := by
  simp [BuildRAGPrompt]

/-- C2 counterexample: with query XYZ and one document whose content is the
text 用户问题, that content occurs twice in the prompt (once in its numbered
block and once in the template label), so it does not occur exactly once, and
in particular the conjunction of the claim fails: the content count is not 1
and the prompt does not end with the query. -/
theorem BuildRAGPrompt_claim_counterexample :
    ¬ (countOccs (str "用户问题")
          (BuildRAGPrompt (str "XYZ")
            [{ ID := str "d1", Content := str "用户问题", MetaData := [] }]) = 1 ∧
        ∃ l, BuildRAGPrompt (str "XYZ")
            [{ ID := str "d1", Content := str "用户问题", MetaData := [] }] =
          l ++ str "XYZ") := by
  intro hc
  exact absurd hc.1 (by decide)

/-- Each numbered block is an infix of the context text; numbering is offset
by the starting index `k` of the accumulation loop. -/
theorem docBlock_infix_contextTextAux (docs : List Document) :
    ∀ (k i : Nat) (hi : i < docs.length),
      ∃ l r, contextTextAux k docs =
        l ++ docBlock (k + i + 1) (docs.get ⟨i, hi⟩) ++ r := by
  induction docs with
  | nil => intro k i hi; exact absurd hi (by simp)
  | cons d rest ih =>
    intro k i hi
    cases i with
    | zero =>
      exact ⟨[], contextTextAux (k + 1) rest, by simp [contextTextAux]⟩
    | succ j =>
      have hj : j < rest.length := by simpa using Nat.lt_of_succ_lt_succ hi
      obtain ⟨l, r, hlr⟩ := ih (k + 1) j hj
      refine ⟨docBlock (k + 1) d ++ l, r, ?_⟩
      have harith : k + (j + 1) + 1 = k + 1 + j + 1 := by omega
      show docBlock (k + 1) d ++ contextTextAux (k + 1) rest = _
      have hget : (d :: rest).get ⟨j + 1, hi⟩ = rest.get ⟨j, hj⟩ := rfl
      rw [harith, hget, hlr]
      simp

/-- C2 amended: for every query and non-empty document list, the prompt
contains for each position i the numbered block `[文档 i+1]` holding the i-th
document's content (blocks in input order, numbered from 1), and contains the
query verbatim right after the 用户问题 label, followed only by the fixed
closing instruction; a document's content may additionally occur elsewhere in
the prompt, and the prompt ends with the closing instruction, not the query. -/
theorem BuildRAGPrompt_blocks_and_query (q : Str) (docs : List Document)
    (h : docs ≠ []) :
    (∀ i (hi : i < docs.length),
        ∃ l r, BuildRAGPrompt q docs =
          l ++ docBlock (i + 1) (docs.get ⟨i, hi⟩) ++ r) ∧
    ∃ l, BuildRAGPrompt q docs = l ++ (str "用户问题：" ++ q ++ ragTail) := by
  constructor
  · intro i hi
    obtain ⟨l, r, hlr⟩ := docBlock_infix_contextTextAux docs 0 i hi
    rw [Nat.zero_add] at hlr
    refine ⟨ragHeader ++ l, r ++ ragMid ++ q ++ ragTail, ?_⟩
    simp [BuildRAGPrompt, h, contextText, hlr]
  · refine ⟨ragHeader ++ contextText docs ++ str "\n\n", ?_⟩
    have hmid : ragMid = str "\n\n" ++ str "用户问题：" := by decide
    simp [BuildRAGPrompt, h, hmid]

/-- Witness for the amended C2 at a concrete query and document list. -/
theorem BuildRAGPrompt_blocks_and_query_witness :
    ∃ l, BuildRAGPrompt (str "hi")
        [{ ID := str "d1", Content := str "alpha", MetaData := [] }] =
      l ++ (str "用户问题：" ++ str "hi" ++ ragTail) :=
  (BuildRAGPrompt_blocks_and_query (str "hi")
    [{ ID := str "d1", Content := str "alpha", MetaData := [] }] (by decide)).2

/-- An error from the relational store: gorm's record-not-found, or any
other error (connectivity failure etc.), carrying a message. -/
inductive DBError where
  | recordNotFound
  | other (msg : Str)
deriving DecidableEq

/-- `model.User`: the stored user row, with the fields the DAO touches. -/
structure User where
  Email : Str
  Name : Str
  Username : Str
  Password : Str
deriving DecidableEq

/-- A Go `(*model.User, error)` pair as returned by the relational-store
lookups. -/
structure LookupResult where
  user : Option User
  err : Option DBError
deriving DecidableEq

/-- `IsExistUser`: looks the login identifier up as a username, then as an
email, mirroring the Go control flow. The two store lookups
(`mysql.GetUserByUsername`, `mysql.GetUserByEmail`) are collaborators passed
as functions. -/
def IsExistUser (getUserByUsername getUserByEmail : Str → LookupResult)
    (username : Str) : Bool × Option User :=
  let r := getUserByUsername username
  if r.err = none ∧ r.user ≠ none then (true, r.user)
  else if r.err ≠ none ∧ r.err ≠ some DBError.recordNotFound then (false, none)
  else
    let r2 := getUserByEmail username
    if r2.err = none ∧ r2.user ≠ none then (true, r2.user)
    else if r2.err ≠ none ∧ r2.err ≠ some DBError.recordNotFound then (false, none)
    else (false, none)

/-- C5: when both lookups report record-not-found the check returns the plain
boolean result false with no user (its return type carries no error at all,
so the not-found error is not propagated); when the username lookup succeeds,
or fails as not-found and the email lookup succeeds, it returns true with the
stored user. -/
theorem IsExistUser_not_found_is_boolean
    (getUserByUsername getUserByEmail : Str → LookupResult)
    (username : Str) (u : User) :
    (getUserByUsername username = ⟨none, some DBError.recordNotFound⟩ →
      getUserByEmail username = ⟨none, some DBError.recordNotFound⟩ →
      IsExistUser getUserByUsername getUserByEmail username = (false, none)) ∧
    (getUserByUsername username = ⟨some u, none⟩ →
      IsExistUser getUserByUsername getUserByEmail username = (true, some u)) ∧
    (getUserByUsername username = ⟨none, some DBError.recordNotFound⟩ →
      getUserByEmail username = ⟨some u, none⟩ →
      IsExistUser getUserByUsername getUserByEmail username = (true, some u)) := by
  refine ⟨?_, ?_, ?_⟩
  · intro h1 h2
    simp [IsExistUser, h1, h2]
  · intro h1
    simp [IsExistUser, h1]
  · intro h1 h2
    simp [IsExistUser, h1, h2]

/-- Witness for C5: both lookups report record-not-found and the check
returns the boolean false with no user. -/
theorem IsExistUser_not_found_is_boolean_witness :
    IsExistUser (fun _ => ⟨none, some DBError.recordNotFound⟩)
      (fun _ => ⟨none, some DBError.recordNotFound⟩) (str "alice") =
      (false, none) :=
  (IsExistUser_not_found_is_boolean
    (fun _ => ⟨none, some DBError.recordNotFound⟩)
    (fun _ => ⟨none, some DBError.recordNotFound⟩) (str "alice")
    ⟨[], [], [], []⟩).1 rfl rfl

/-- C9: an error other than record-not-found, from the username lookup or
(after a username record-not-found) from the email lookup, yields the same
result (false, no user) as a genuine not-found; the error is swallowed, as
nothing in the return type can carry it. -/
theorem IsExistUser_swallows_other_errors
    (getUserByUsername getUserByEmail : Str → LookupResult)
    (username : Str) (uu : Option User) (e : DBError)
    (he : e ≠ DBError.recordNotFound) :
    (getUserByUsername username = ⟨uu, some e⟩ →
      IsExistUser getUserByUsername getUserByEmail username = (false, none)) ∧
    (getUserByUsername username = ⟨none, some DBError.recordNotFound⟩ →
      getUserByEmail username = ⟨uu, some e⟩ →
      IsExistUser getUserByUsername getUserByEmail username = (false, none)) := by
  constructor
  · intro h1
    simp [IsExistUser, h1, he]
  · intro h1 h2
    simp [IsExistUser, h1, h2, he]

/-- Witness for C9: a connectivity-style error on the username lookup yields
(false, no user), indistinguishable from not-found. -/
theorem IsExistUser_swallows_other_errors_witness :
    IsExistUser (fun _ => ⟨none, some (DBError.other (str "conn refused"))⟩)
      (fun _ => ⟨none, some DBError.recordNotFound⟩) (str "alice") =
      (false, none) :=
  (IsExistUser_swallows_other_errors
    (fun _ => ⟨none, some (DBError.other (str "conn refused"))⟩)
    (fun _ => ⟨none, some DBError.recordNotFound⟩) (str "alice") none
    (DBError.other (str "conn refused")) (by decide)).1 rfl

/-- The user row `Register` hands to the relational store: email as given,
name and username both set to the given username, password set to the hash
of the given password. -/
def mkRegisterUser (md5 : Str → Str) (username email password : Str) : User :=
  { Email := email, Name := username, Username := username,
    Password := md5 password }

/-- `Register`: inserts the row built by `mkRegisterUser` through the store
collaborator `insertUser`; on an insert error it returns no user and false,
otherwise the user the store returned and true. The hash function
(`utils.MD5`) is a collaborator passed as a function. -/
def Register (md5 : Str → Str) (insertUser : User → Option User × Option DBError)
    (username email password : Str) : Option User × Bool :=
  match insertUser (mkRegisterUser md5 username email password) with
  | (_, some _) => (none, false)
  | (u, none) => (u, true)

/-- C8: the row Register stores has its Password field equal to the hash of
the password (the plaintext only under the hash image), Name and Username
both equal to the given username and Email the given email; an insert error
yields (no user, false) and a successful insert yields the inserted user
with true. -/
theorem Register_hashes_and_reports (md5 : Str → Str)
    (insertUser : User → Option User × Option DBError)
    (username email password : Str) :
    (mkRegisterUser md5 username email password).Password = md5 password ∧
    (mkRegisterUser md5 username email password).Name = username ∧
    (mkRegisterUser md5 username email password).Username = username ∧
    (mkRegisterUser md5 username email password).Email = email ∧
    (∀ u e, insertUser (mkRegisterUser md5 username email password) = (u, some e) →
      Register md5 insertUser username email password = (none, false)) ∧
    (∀ u, insertUser (mkRegisterUser md5 username email password) = (u, none) →
      Register md5 insertUser username email password = (u, true)) := by
  refine ⟨rfl, rfl, rfl, rfl, ?_, ?_⟩
  · intro u e hins
    simp [Register, hins]
  · intro u hins
    simp [Register, hins]

/-- Witness for C8: with a concrete tagging hash and a store that returns the
inserted row, Register returns that row with true. -/
theorem Register_hashes_and_reports_witness :
    Register (fun p => str "#" ++ p) (fun u => (some u, none))
      (str "alice") (str "a@b.c") (str "pw") =
      (some (mkRegisterUser (fun p => str "#" ++ p)
        (str "alice") (str "a@b.c") (str "pw")), true) :=
  (Register_hashes_and_reports (fun p => str "#" ++ p)
    (fun u => (some u, none)) (str "alice") (str "a@b.c") (str "pw")).2.2.2.2.2
    (some (mkRegisterUser (fun p => str "#" ++ p)
      (str "alice") (str "a@b.c") (str "pw"))) rfl

/-- The document `IndexFile` builds from a file's path and content: the fixed
id doc_1, the entire content, and the path under the source metadata key. -/
def docOfFile (filePath content : Str) : Document :=
  { ID := str "doc_1", Content := content,
    MetaData := [(str "source", MetaVal.str filePath)] }

/-- `IndexFile`: reads the file through the filesystem collaborator
`readFile`, wraps the whole content as the single document `docOfFile`, and
submits that one-element batch through the indexer collaborator `store`,
wrapping either failure with a stage message. -/
def IndexFile (readFile : Str → Except Str Str)
    (store : List Document → Except Str (List Str)) (filePath : Str) :
    Except Str Unit :=
  match readFile filePath with
  | Except.error e => Except.error (str "failed to read file: " ++ e)
  | Except.ok content =>
    match store [docOfFile filePath content] with
    | Except.error e => Except.error (str "failed to store document: " ++ e)
    | Except.ok _ => Except.ok ()

/-- C4: whenever the file's bytes can be read, `IndexFile` submits to the
indexer exactly the one-element batch holding `docOfFile`, whose id is the
constant doc_1, whose content is the whole file content (no chunking), and
whose only metadata entry is the file path under the source key; the call's
result is exactly the outcome of storing that single batch. -/
theorem IndexFile_single_whole_document (readFile : Str → Except Str Str)
    (store : List Document → Except Str (List Str)) (filePath content : Str)
    (h : readFile filePath = Except.ok content) :
    IndexFile readFile store filePath =
      (match store [docOfFile filePath content] with
       | Except.error e => Except.error (str "failed to store document: " ++ e)
       | Except.ok _ => Except.ok ()) ∧
    [docOfFile filePath content].length = 1 ∧
    (docOfFile filePath content).ID = str "doc_1" ∧
    (docOfFile filePath content).Content = content ∧
    (docOfFile filePath content).MetaData = [(str "source", MetaVal.str filePath)] := by
  refine ⟨?_, rfl, rfl, rfl, rfl⟩
  simp [IndexFile, h]

/-- Witness for C4: a readable file and an accepting store give success. -/
theorem IndexFile_single_whole_document_witness :
    IndexFile (fun _ => Except.ok (str "hello")) (fun _ => Except.ok [])
      (str "a.txt") = Except.ok () := by
  have h := (IndexFile_single_whole_document (fun _ => Except.ok (str "hello"))
    (fun _ => Except.ok []) (str "a.txt") (str "hello") rfl).1
  simpa using h

/-- `redisCli.Document`: a raw vector-store search hit, id plus the returned
fields (a string-to-string map). -/
structure RedisDoc where
  ID : Str
  Fields : List (Str × Str)
deriving DecidableEq

/-- The field loop of the `DocumentConverter` in `NewRAGQuery`: the content
field is assigned to the document content, every other field is added to the
metadata. -/
def convLoop : List (Str × Str) → Document → Document
  | [], resp => resp
  | (field, val) :: rest, resp =>
    if field = str "content" then convLoop rest { resp with Content := val }
    else convLoop rest
      { resp with MetaData := resp.MetaData ++ [(field, MetaVal.str val)] }

/-- The `DocumentConverter` of `NewRAGQuery`: starts from a document carrying
the hit's id with empty content and metadata, and folds the returned fields
through `convLoop`; it never fails. -/
def DocumentConverter (doc : RedisDoc) : Except Str Document :=
  Except.ok (convLoop doc.Fields { ID := doc.ID, Content := [], MetaData := [] })

/-- The retriever configuration record built by `NewRAGQuery` for a resolved
index name. -/
structure RetrieverConfig where
  Index : Str
  Dialect : Nat
  ReturnFields : List Str
  TopK : Nat
  VectorField : Str
deriving DecidableEq

/-- The literal configuration values from `NewRAGQuery`. -/
def NewRAGQueryRetrieverConfig (indexName : Str) : RetrieverConfig :=
  { Index := indexName
    Dialect := 2
    ReturnFields := [str "content", str "metadata", str "distance"]
    TopK := 5
    VectorField := str "vector" }

/-- A key absent from an association list's keys is never found. -/
theorem lookup_eq_none_of_not_mem_keys {l : List (Str × Str)} {a : Str}
    (h : a ∉ l.map Prod.fst) : l.lookup a = none := by
  induction l with
  | nil => rfl
  | cons kv rest ih =>
    simp only [List.map_cons, List.mem_cons, not_or] at h
    have hne : (a == kv.1) = false := beq_eq_false_iff_ne.mpr h.1
    simp [List.lookup, hne, ih h.2]

/-- `convLoop` over fields with pairwise-distinct keys: the id is unchanged,
the content becomes the value under the content key when present, and the
metadata extends by every other field in order. -/
theorem convLoop_spec (fields : List (Str × Str)) (resp : Document)
    (hnd : (fields.map Prod.fst).Nodup) :
    (convLoop fields resp).ID = resp.ID ∧
    (convLoop fields resp).Content =
      (match fields.lookup (str "content") with
       | some v => v
       | none => resp.Content) ∧
    (convLoop fields resp).MetaData =
      resp.MetaData ++
        (fields.filter (fun kv => ! (kv.1 == str "content"))).map
          (fun kv => (kv.1, MetaVal.str kv.2)) := by
  induction fields generalizing resp with
  | nil => simp [convLoop]
  | cons kv rest ih =>
    obtain ⟨field, val⟩ := kv
    simp only [List.map_cons, List.nodup_cons] at hnd
    obtain ⟨hnf, hnd2⟩ := hnd
    by_cases hf : field = str "content"
    · subst hf
      have hrest : rest.lookup (str "content") = none :=
        lookup_eq_none_of_not_mem_keys hnf
      obtain ⟨hid, hcontent, hmeta⟩ := ih { resp with Content := val } hnd2
      refine ⟨hid, ?_, ?_⟩
      · simp [convLoop, List.lookup, hcontent, hrest]
      · simp [convLoop, hmeta]
    · have hne1 : (str "content" == field) = false :=
        beq_eq_false_iff_ne.mpr (Ne.symm hf)
      have hne2 : (field == str "content") = false :=
        beq_eq_false_iff_ne.mpr hf
      have hstep : convLoop ((field, val) :: rest) resp =
          convLoop rest { resp with MetaData := resp.MetaData ++ [(field, MetaVal.str val)] } := by
        simp [convLoop, hf]
      obtain ⟨hid, hcontent, hmeta⟩ :=
        ih { resp with MetaData := resp.MetaData ++ [(field, MetaVal.str val)] } hnd2
      rw [hstep]
      refine ⟨hid, ?_, ?_⟩
      · simp [List.lookup, hne1, hcontent]
      · simp [hmeta, hne2]

/-- C6: the retriever configuration fixes the result count at 5 and the
similarity field at vector, and the converter maps a hit with
pairwise-distinct field names to a document with the hit's id, the content
field's value as content (empty when absent), and every other returned field
as a metadata entry. -/
theorem NewRAGQuery_retriever_spec (indexName : Str) (hit : RedisDoc)
    (hnd : (hit.Fields.map Prod.fst).Nodup) :
    (NewRAGQueryRetrieverConfig indexName).TopK = 5 ∧
    (NewRAGQueryRetrieverConfig indexName).VectorField = str "vector" ∧
    ∃ d, DocumentConverter hit = Except.ok d ∧
      d.ID = hit.ID ∧
      d.Content = (match hit.Fields.lookup (str "content") with
                   | some v => v
                   | none => []) ∧
      d.MetaData = (hit.Fields.filter (fun kv => ! (kv.1 == str "content"))).map
          (fun kv => (kv.1, MetaVal.str kv.2)) := by
  obtain ⟨hid, hcontent, hmeta⟩ :=
    convLoop_spec hit.Fields { ID := hit.ID, Content := [], MetaData := [] } hnd
  exact ⟨rfl, rfl, _, rfl, hid, hcontent, by simpa using hmeta⟩

/-- Witness for C6 at a concrete hit with the three returned fields. -/
theorem NewRAGQuery_retriever_spec_witness :
    (NewRAGQueryRetrieverConfig (str "idx")).TopK = 5 ∧
    (NewRAGQueryRetrieverConfig (str "idx")).VectorField = str "vector" ∧
    ∃ d, DocumentConverter
        { ID := str "k1",
          Fields := [(str "content", str "hello"), (str "metadata", str "a.txt"),
                     (str "distance", str "0.12")] } = Except.ok d ∧
      d.ID = str "k1" ∧
      d.Content = (match List.lookup (str "content")
                     [(str "content", str "hello"), (str "metadata", str "a.txt"),
                      (str "distance", str "0.12")] with
                   | some v => v
                   | none => []) ∧
      d.MetaData = (List.filter (fun kv => ! (kv.1 == str "content"))
          [(str "content", str "hello"), (str "metadata", str "a.txt"),
           (str "distance", str "0.12")]).map
          (fun kv => (kv.1, MetaVal.str kv.2)) :=
  NewRAGQuery_retriever_spec (str "idx")
    { ID := str "k1",
      Fields := [(str "content", str "hello"), (str "metadata", str "a.txt"),
                 (str "distance", str "0.12")] } (by decide)

/-- Modelled from the spec: `DeleteRedisIndex` (package GopherAI/common/redis)
is not under src; the spec names it only as the Vector Store collaborator's
delete-index call whose error the wrapper propagates unconditionally, so it
is taken as an abstract store behavior passed as a function. `DeleteIndex`
wraps its error with a stage message and otherwise reports success. -/
def DeleteIndex (deleteRedisIndex : Str → Except Str Unit) (filename : Str) :
    Except Str Unit :=
  match deleteRedisIndex filename with
  | Except.error e => Except.error (str "failed to delete redis index: " ++ e)
  | Except.ok _ => Except.ok ()

/-- C7: deleting any knowledge-base name — in particular one absent from the
store — always yields a well-formed result rather than a crash: success
exactly when the store call succeeds, and otherwise a stage-labelled error
carrying the store's own (e.g. not-found-style) message verbatim as a suffix,
so its identification is preserved. -/
theorem DeleteIndex_total_propagates (deleteRedisIndex : Str → Except Str Unit)
    (filename : Str) :
    (deleteRedisIndex filename = Except.ok () →
      DeleteIndex deleteRedisIndex filename = Except.ok ()) ∧
    (∀ e, deleteRedisIndex filename = Except.error e →
      DeleteIndex deleteRedisIndex filename =
        Except.error (str "failed to delete redis index: " ++ e) ∧
      ∃ l, str "failed to delete redis index: " ++ e = l ++ e) := by
  constructor
  · intro h
    simp [DeleteIndex, h]
  · intro e h
    exact ⟨by simp [DeleteIndex, h], str "failed to delete redis index: ", rfl⟩

/-- Witness for C7: a store that reports an unknown-index error on a missing
name; the caller receives the wrapped error. -/
theorem DeleteIndex_total_propagates_witness :
    DeleteIndex (fun _ => Except.error (str "Unknown index name")) (str "nope") =
      Except.error (str "failed to delete redis index: " ++ str "Unknown index name") :=
  ((DeleteIndex_total_propagates (fun _ => Except.error (str "Unknown index name"))
    (str "nope")).2 (str "Unknown index name") rfl).1
